import Mathlib

/-!
Verification development for the semantic-analysis pass (typechecker) of the
compis compiler (src/src/typecheck.c).  The definitions below are shallow
embeddings of the corresponding C functions; each definition's doc comment
names the C function and line range it was translated from.

Modelling conventions:
* AST type nodes are modelled by the inductive `Compis.Ty`.  The C compiler
  interns user types so that a pointer compare (`x == y`) coincides with
  structural equality for checked types; identity-sensitive places (struct
  types, which are compared by pointer only) carry an explicit id field.
* Node flags that are derived facts (NF_DROP, NF_SUBOWNERS) are modelled by
  recomputation (`type_isowner`), matching how the checker establishes them.
* Machine integers are modelled with `Nat`; where a 64-bit bound matters it
  appears as an explicit hypothesis or an explicit `2 ^ 64` bound.
-/

namespace Compis

/-- Type nodes, mirroring the `nodekind_t` type kinds of compiler.h
(TYPE_VOID .. TYPE_UNRESOLVED).  `structT` carries an id (modelling node
identity of the named struct) and an `owner` flag (modelling the
NF_DROP/NF_SUBOWNERS flag bits set on the struct node during checking).
`aliasT` carries an id modelling the alias name.  `funT` models function
types opaquely (they never participate in the compatibility rules under
study other than via the default case). -/
inductive Ty where
  | void
  | bool
  | i8 | i16 | i32 | i64
  | u8 | u16 | u32 | u64
  | int | uint
  | f32 | f64
  | unknown
  | structT (sid : Nat) (owner : Bool)
  | aliasT (aid : Nat) (elem : Ty)
  | ptr (elem : Ty)
  | ref (elem : Ty)
  | mutref (elem : Ty)
  | slice (elem : Ty)
  | mutslice (elem : Ty)
  | opt (elem : Ty)
  | array (len : Nat) (elem : Ty)
  | funT (fid : Nat)
  | unresolved (name : Nat)
deriving DecidableEq, Repr

/-- Structural size measure on type nodes, used for termination of the
compatibility checker (the C code terminates because types are finite
trees). -/
def sizeT : Ty → Nat
  | .aliasT _ e => 1 + sizeT e
  | .ptr e => 1 + sizeT e
  | .ref e => 1 + sizeT e
  | .mutref e => 1 + sizeT e
  | .slice e => 1 + sizeT e
  | .mutslice e => 1 + sizeT e
  | .opt e => 1 + sizeT e
  | .array _ e => 1 + sizeT e
  | _ => 1

/-- Compiler configuration consumed by the checker: the concrete width of
the native `int`/`uint` types (compiler.h: `compiler_t.inttype/uinttype`,
`target.intsize`, `target.ptrsize`).  The real compiler points `inttype`
at one of the primitive type singletons; `intsize8 = true` models a 64-bit
target (`intsize == 8`), `false` a 32-bit target (`intsize == 4`). -/
structure Config where
  intsize8 : Bool
  ptrsize : Nat
deriving DecidableEq, Repr

/-- The concrete native int type (`compiler_t.inttype`). -/
def Config.intTy (c : Config) : Ty := if c.intsize8 then .i64 else .i32

/-- The concrete native uint type (`compiler_t.uinttype`). -/
def Config.uintTy (c : Config) : Ty := if c.intsize8 then .u64 else .u32

/-- The `target.intsize` value in bytes. -/
def Config.intsize (c : Config) : Nat := if c.intsize8 then 8 else 4

/-- Translation of `unwrap_alias` (typecheck.c:172-176): strip alias
wrappers. -/
def unwrap_alias : Ty → Ty
  | .aliasT _ e => unwrap_alias e
  | t => t

/-- Translation of `type_isowner` (typecheck.c:149-158) together with the
flag-setting sites that feed it: a struct node's NF_DROP/NF_SUBOWNERS flags
are modelled by its `owner` field; NF_SUBOWNERS on array types
(typecheck.c:1174-1175) and alias types (typecheck.c:3508-3509) is set
exactly when the element is an owner, so it is modelled by recursion. -/
def type_isowner : Ty → Bool
  | .opt (.structT _ ow) => ow
  | .opt (.ptr _) => true
  | .opt (.aliasT _ e) => type_isowner e
  | .opt (.array _ e) => type_isowner e
  | .opt _ => false
  | .structT _ ow => ow
  | .ptr _ => true
  | .aliasT _ e => type_isowner e
  | .array _ e => type_isowner e
  | _ => false

/-- Translation of `type_compat_unwrap` (typecheck.c:244-263): unwrap
aliases, canonicalize int/uint to the configured concrete type, and (when
`may_deref`) dereference one level of `&T`/`mut&T` (after which no further
dereference is allowed, but alias unwrapping continues). -/
def type_compat_unwrap (c : Config) : Bool → Ty → Ty
  | md, .aliasT _ e => type_compat_unwrap c md e
  | _, .int => c.intTy
  | _, .uint => c.uintTy
  | true, .ref e => type_compat_unwrap c false e
  | true, .mutref e => type_compat_unwrap c false e
  | _, t => t

/-- Translation of `type_compat` / `_type_compat` (typecheck.c:227-233 and
265-395), with an explicit recursion-depth budget (`fuel`) standing in for
the C call stack; the wrapper `type_compat` supplies a budget that the
lemmas below show is always sufficient (the C recursion descends into
strictly smaller types).  The C functions test pointer equality (`x == y`)
which, for checked/interned types, is structural equality (modelled by `=`
on `Ty`), unwrap both sides with `type_compat_unwrap` (dereferencing only
when not an assignment), and dispatch on the unwrapped left kind:
* sized integer types (typecheck.c:291-303): for assignment, additionally
  deref-unwrap the right side, then require equality;
* struct (305-309): same unwrap, require equality and non-owner;
* ptr (311-316): accept any ptr-like right side, compare elements;
* optional (318-325): strip optional off the right side if present, then
  compare the element against it;
* ref/mutref (327-348): a `*T` right side compares elements; otherwise the
  right must be a ref and `(r_ismut == l_ismut || r_ismut || !l_ismut)`
  must hold (i.e. reject exactly `mut& <- &`), comparing elements;
* slice/mutslice (350-381): same mutability rule against slice right sides
  and against references-to-arrays;
* array (383-391): lengths equal and elements compatible;
* anything else (394): false. -/
def type_compat_fuel (c : Config) (assignment : Bool) : Nat → Ty → Ty → Bool
  | 0, _, _ => false
  | fuel+1, x, y =>
    if x = y then true
    else if type_compat_unwrap c (!assignment) x = type_compat_unwrap c (!assignment) y then true
    else
      match type_compat_unwrap c (!assignment) x, type_compat_unwrap c (!assignment) y with
      | .i8, y' => decide (Ty.i8 = (if assignment then type_compat_unwrap c true y' else y'))
      | .i16, y' => decide (Ty.i16 = (if assignment then type_compat_unwrap c true y' else y'))
      | .i32, y' => decide (Ty.i32 = (if assignment then type_compat_unwrap c true y' else y'))
      | .i64, y' => decide (Ty.i64 = (if assignment then type_compat_unwrap c true y' else y'))
      | .u8, y' => decide (Ty.u8 = (if assignment then type_compat_unwrap c true y' else y'))
      | .u16, y' => decide (Ty.u16 = (if assignment then type_compat_unwrap c true y' else y'))
      | .u32, y' => decide (Ty.u32 = (if assignment then type_compat_unwrap c true y' else y'))
      | .u64, y' => decide (Ty.u64 = (if assignment then type_compat_unwrap c true y' else y'))
      | .structT si ow, y' =>
          (decide (Ty.structT si ow = (if assignment then type_compat_unwrap c true y' else y'))
            && !(type_isowner (.structT si ow)))
      | .ptr e, .ptr e2 => type_compat_fuel c assignment fuel e e2
      | .ptr e, .ref e2 => type_compat_fuel c assignment fuel e e2
      | .ptr e, .mutref e2 => type_compat_fuel c assignment fuel e e2
      | .ptr _, _ => false
      | .opt d, .opt ye => type_compat_fuel c assignment fuel d ye
      | .opt d, y' => type_compat_fuel c assignment fuel d y'
      | .ref e, .ptr e2 => type_compat_fuel c assignment fuel e e2
      | .mutref e, .ptr e2 => type_compat_fuel c assignment fuel e e2
      | .ref e, .ref e2 => type_compat_fuel c assignment fuel e e2
      | .ref e, .mutref e2 => type_compat_fuel c assignment fuel e e2
      | .mutref _, .ref _ => false
      | .mutref e, .mutref e2 => type_compat_fuel c assignment fuel e e2
      | .ref _, _ => false
      | .mutref _, _ => false
      | .slice e, .slice e2 => type_compat_fuel c assignment fuel e e2
      | .slice e, .mutslice e2 => type_compat_fuel c assignment fuel e e2
      | .mutslice _, .slice _ => false
      | .mutslice e, .mutslice e2 => type_compat_fuel c assignment fuel e e2
      | .slice e, .ref (.array _ e2) => type_compat_fuel c assignment fuel e e2
      | .slice e, .mutref (.array _ e2) => type_compat_fuel c assignment fuel e e2
      | .mutslice _, .ref (.array _ _) => false
      | .mutslice e, .mutref (.array _ e2) => type_compat_fuel c assignment fuel e e2
      | .slice _, _ => false
      | .mutslice _, _ => false
      | .array n e, .array n2 e2 => decide (n = n2) && type_compat_fuel c assignment fuel e e2
      | .array _ _, _ => false
      | _, _ => false

/-- The compatibility check at its sufficient recursion budget (see
`type_compat_fuel`): this is the model of `type_compat` (typecheck.c:229-233). -/
def type_compat (c : Config) (assignment : Bool) (x y : Ty) : Bool :=
  type_compat_fuel c assignment (sizeT x + sizeT y) x y

/-- Translation of `type_isassignable` (typecheck.c:237-239). -/
def type_isassignable (c : Config) (x y : Ty) : Bool :=
  type_compat c true x y

/-- Translation of `type_iscompatible` (typecheck.c:240-242). -/
def type_iscompatible (c : Config) (x y : Ty) : Bool :=
  type_compat c false x y

/-- Modelled from the spec: the structural type id (`typeid_intern` /
`typeid_of`; their implementation is not under src/, only uses are).
Spec section 3, "Type id (structural)": a canonical byte string derived
from a type's kind and recursive components, used as a hashmap key to
intern user types and to key template-instance memoization.  The id is
modelled as a list of naturals: a per-kind code followed by the encoded
components. -/
def typeid : Ty → List Nat
  | .void => [0]
  | .bool => [1]
  | .i8 => [2]
  | .i16 => [3]
  | .i32 => [4]
  | .i64 => [5]
  | .u8 => [6]
  | .u16 => [7]
  | .u32 => [8]
  | .u64 => [9]
  | .int => [10]
  | .uint => [11]
  | .f32 => [12]
  | .f64 => [13]
  | .unknown => [14]
  | .structT sid ow => [15, sid, if ow then 1 else 0]
  | .aliasT aid e => 16 :: aid :: typeid e
  | .ptr e => 17 :: typeid e
  | .ref e => 18 :: typeid e
  | .mutref e => 19 :: typeid e
  | .slice e => 20 :: typeid e
  | .mutslice e => 21 :: typeid e
  | .opt e => 22 :: typeid e
  | .array n e => 23 :: n :: typeid e
  | .funT fid => [24, fid]
  | .unresolved n => [25, n]

/-- A type node together with its identity (the C world's pointer),
distinguishing structurally equal nodes allocated separately. -/
structure TNode where
  nid : Nat
  ty : Ty
deriving DecidableEq, Repr

/-- The user-type interner state: `typecheck_t.typeidmap`, a map from
structural type id to the canonical type node (typecheck.c:48). -/
structure InternState where
  typeidmap : List (List Nat × TNode)
deriving DecidableEq, Repr

/-- Translation of `intern_usertype` (typecheck.c:536-574): compute the
node's type id; if the map already has an entry, replace the caller's node
pointer (`*tp`) with the canonical node and return false ("not added");
otherwise insert this node and return true ("added").  The returned node
models the value of `*tp` after the call. -/
def intern_usertype (st : InternState) (n : TNode) : Bool × TNode × InternState :=
  let tid := typeid n.ty
  match st.typeidmap.lookup tid with
  | some p => (false, p, st)
  | none => (true, n, ⟨(tid, n) :: st.typeidmap⟩)

/-- A sequence of `intern_usertype` calls (the successive interning of
user types reached while checking), returning the final state with the
list of canonical nodes handed back to each caller. -/
def intern_run : InternState → List TNode → InternState × List TNode
  | st, [] => (st, [])
  | st, n :: ns =>
      let r := intern_usertype st n
      let rest := intern_run r.2.2 ns
      (rest.1, r.2.1 :: rest.2)

/-- A template type: its node identity and the declared parameters, each
with an optional default argument (`usertype_t.templateparams`, with
`templateparam_t.init` as the default). -/
structure Template where
  tid : Nat
  paramDefaults : List (Option Ty)
deriving DecidableEq, Repr

/-- The concatenation of the argument type ids, as appended to the
memoization key by `templateimap_mkkey` (typecheck.c:3161-3170); the key
itself is the template pointer followed by this concatenation, modelled as
the pair `(tid, concatenation)`. -/
def typeid_concat (args : List Ty) : List Nat :=
  (args.map typeid).flatten

/-- Argument completion in `instantiate_templatetype`
(typecheck.c:3263-3277): when fewer arguments than parameters are given,
defaults of the remaining parameters are appended (the C code asserts that
each such default exists). -/
def template_args_complete (t : Template) (args : List Ty) : List Ty :=
  args ++ (t.paramDefaults.drop args.length).reduceOption

/-- Template-instantiation state: `typecheck_t.templateimap`
(typecheck.c:49) mapping memoization keys to instance nodes (instances
modelled by identity), a counter of performed template expansions
(`ast_transform` runs, typecheck.c:3293-3294), and the allocator for
fresh instance identities. -/
structure TemplateIState where
  templateimap : List ((Nat × List Nat) × Nat)
  nexpand : Nat
  nextid : Nat
deriving DecidableEq, Repr

/-- Translation of `templateimap_lookup` (typecheck.c:3202-3230): build
the key from the template pointer and the argument type ids and look up an
existing instance. -/
def templateimap_lookup (st : TemplateIState) (t : Template) (cargs : List Ty) : Option Nat :=
  st.templateimap.lookup (t.tid, typeid_concat cargs)

/-- Translation of `instantiate_templatetype` (typecheck.c:3233-3340)
restricted to its memoization behaviour: complete the arguments with
defaults, look up an existing instance and reuse it unchanged
(typecheck.c:3280-3290); otherwise expand the template (`ast_transform`,
modelled as allocating a fresh instance identity and counting one
expansion) and register the instance in the memoization map before
type-checking it (typecheck.c:3321-3322). -/
def instantiate_templatetype (st : TemplateIState) (t : Template) (args : List Ty) :
    Nat × TemplateIState :=
  let cargs := template_args_complete t args
  match templateimap_lookup st t cargs with
  | some inst => (inst, st)
  | none =>
      (st.nextid,
       { templateimap := ((t.tid, typeid_concat cargs), st.nextid) :: st.templateimap,
         nexpand := st.nexpand + 1,
         nextid := st.nextid + 1 })

/-- Checker allocation state used by the string-literal rule: the node-id
allocator (the AST arena) and the user-type interner. -/
structure CheckSt where
  nextid : Nat
  intern : InternState
deriving DecidableEq, Repr

/-- Translation of `strlit` (typecheck.c:2391-2407): if the expected type
(`a->typectx`) is pointer-identical to the compiler's configured `str`
alias (`&a->compiler->strtype`, identified here by `strTypeNid`), the
literal adopts it; otherwise a fresh `[u8 N]` array type (marked checked)
and a fresh `&[u8 N]` reference type are allocated and the reference
becomes the literal's type.  The node size/alignment computation
(`arraytype_calc_size`) is not modelled.  Note that the function does not
touch the interner state. -/
def strlit (strTypeNid : Nat) (typectx : TNode) (len : Nat) (st : CheckSt) :
    TNode × CheckSt :=
  if typectx.nid = strTypeNid then (typectx, st)
  else
    (⟨st.nextid + 1, .ref (.array len .u8)⟩,
     { st with nextid := st.nextid + 2 })

/-- Node kinds of scope entries relevant to narrowing: identifier
expressions and the local kinds (`EXPR_PARAM`, `EXPR_VAR`, `EXPR_LET`). -/
inductive EKind where
  | id
  | paramE
  | varE
  | letE
deriving DecidableEq, Repr

/-- A scope entry during narrowing: the binding's name, node kind, type,
the type of its initializer (if any), and the narrowing flag bits
NF_NARROWED / NF_MARK1 ("negative") / NF_MARK2 ("local definition"). -/
structure NEntry where
  name : Nat
  kind : EKind
  ty : Ty
  initTy : Option Ty
  narrowed : Bool
  mark1 : Bool
  mark2 : Bool
deriving DecidableEq, Repr

/-- Condition ASTs as traversed by the narrower (`type_narrow_cond1`
descends only through `!`, `&&`, `||`, identifier references and local
definitions; everything else is `otherE`).  `mk` models the NF_NARROWED
flag bit on the node itself (false for a freshly parsed condition).  An
identifier reference carries the name, kind, type and initializer type of
its resolved binding (`idexpr_t.ref`), which `type_narrow_cond1` clones.
A local definition (`if let` / `if var`) carries its declared type, its
initializer's type and, for the diagnostic traversal
(`type_narrow_error_find_local` walks all children), the initializer
condition-subtree when one is relevant. -/
inductive NCond where
  | idRef (mk : Bool) (name : Nat) (refKind : EKind) (ty : Ty) (refInitTy : Option Ty)
  | notE (e : NCond)
  | landE (l r : NCond)
  | lorE (l r : NCond)
  | letdef (mk : Bool) (isVar : Bool) (name : Nat) (ty : Ty) (initTy : Option Ty)
      (initSub : Option NCond)
  | otherE
deriving Repr

/-- Whether a type is an optional type (`type_isopt` / kind check against
TYPE_OPTIONAL). -/
def isOptTy : Ty → Bool
  | .opt _ => true
  | _ => false

/-- The element of an optional type (`((opttype_t*)t)->elem`). -/
def optElem : Ty → Ty
  | .opt e => e
  | t => t

/-- Lookup in the current scope only (`scope_lookup(scope, name, 0)`),
newest entry first. -/
def scope_lookup0 (s : List NEntry) (name : Nat) : Option NEntry :=
  s.find? (fun e => e.name = name)

/-- The flag toggling at the end of the `!` case of `type_narrow_cond1`
(typecheck.c:1479-1487): for every entry defined while walking the negated
subexpression (the `k` newest entries), toggle NF_MARK1 if the entry is
narrowed. -/
def toggle_new (k : Nat) (s : List NEntry) : List NEntry :=
  (s.take k).map (fun e => if e.narrowed then { e with mark1 := !e.mark1 } else e) ++ s.drop k

/-- The skip condition of the `EXPR_VAR`/`EXPR_LET` case of
`type_narrow_cond1` (typecheck.c:1530-1542): skip when already narrowed,
when the local's type is unknown, or when the local's type is
non-optional and its initializer (if any, with a known type) is neither
optional nor unknown. -/
def narrow_local_skip (mk : Bool) (ty : Ty) (initTy : Option Ty) : Bool :=
  mk || ty = Ty.unknown ||
    (!(isOptTy ty) &&
      (match initTy with
       | none => true
       | some t => !(isOptTy t) && t ≠ Ty.unknown))

/-- Translation of `type_narrow_cond1` (typecheck.c:1448-1560): a single
walk over the condition that
* for `!e` (typecheck.c:1470-1489) records "has complex op", walks `e`,
  then toggles the "negative" mark on every narrowed binding the walk
  defined;
* for `&&`/`||` (1491-1503) walks both sides, recording "has complex op"
  for `||`;
* for an optional-typed, not-yet-narrowed identifier (1505-1525) marks the
  node narrowed and, unless the current scope already holds a narrowed
  entry of the same node kind under that name, defines a narrowed clone of
  the referenced binding;
* for a local definition (1527-1550) that passes the optionality test,
  records "has local definition", marks the node, and defines it with
  NF_NARROWED|NF_MARK2;
* leaves every other node alone (1552-1557).
Returns the walked condition (with its NF_NARROWED node marks), the scope
and the flag pair (has-complex-op, has-local-definition).  OOM failure
paths are not modelled. -/
def type_narrow_cond1 (s : List NEntry) (f : Bool × Bool) :
    NCond → NCond × List NEntry × (Bool × Bool)
  | .notE e =>
      let r := type_narrow_cond1 s (true, f.2) e
      (.notE r.1, toggle_new (r.2.1.length - s.length) r.2.1, r.2.2)
  | .landE l r =>
      let rl := type_narrow_cond1 s f l
      let rr := type_narrow_cond1 rl.2.1 rl.2.2 r
      (.landE rl.1 rr.1, rr.2.1, rr.2.2)
  | .lorE l r =>
      let rl := type_narrow_cond1 s (true, f.2) l
      let rr := type_narrow_cond1 rl.2.1 rl.2.2 r
      (.lorE rl.1 rr.1, rr.2.1, rr.2.2)
  | .idRef mk name rk ty iTy =>
      if !(isOptTy ty) || mk then (.idRef mk name rk ty iTy, s, f)
      else
        let n' := NCond.idRef true name rk ty iTy
        match scope_lookup0 s name with
        | some e2 =>
            if e2.kind = EKind.id && e2.narrowed then (n', s, f)
            else (n', ⟨name, rk, ty, iTy, true, false, false⟩ :: s, f)
        | none => (n', ⟨name, rk, ty, iTy, true, false, false⟩ :: s, f)
  | .letdef mk isVar name ty iTy sub =>
      if narrow_local_skip mk ty iTy then (.letdef mk isVar name ty iTy sub, s, f)
      else
        (.letdef true isVar name ty iTy sub,
         ⟨name, if isVar then EKind.varE else EKind.letE, ty, iTy, true, false, true⟩ :: s,
         (f.1, true))
  | .otherE => (.otherE, s, f)

/-- An identifier reference under `k` nested `!` operators: the condition
shape `if x`, `if !x`, `if !!x`, ... considered by the narrowing claims. -/
def notChain : Nat → NCond → NCond
  | 0, e => e
  | k+1, e => .notE (notChain k e)

/-- The operators recorded by `type_narrow_error_find_local`: `!`
(OP_NOT) and `\|\|` (OP_LOR). -/
inductive NOp where
  | notOp
  | orOp
deriving DecidableEq, Repr

/-- Translation of `type_narrow_error_find_local` (typecheck.c:1406-1432):
a pre-order walk over the condition that records the first narrowed
var/let definition and the first `!` or `||` operator encountered.  The C
early exit once both are found is behaviour-equivalent to the first-wins
accumulation used here (the traversal order is identical). -/
def find_local_mix : NCond → Option Bool × Option NOp → Option Bool × Option NOp
  | .notE e, acc => find_local_mix e (acc.1, acc.2 <|> some NOp.notOp)
  | .lorE l r, acc =>
      find_local_mix r (find_local_mix l (acc.1, acc.2 <|> some NOp.orOp))
  | .landE l r, acc => find_local_mix r (find_local_mix l acc)
  | .idRef _ _ _ _ _, acc => acc
  | .letdef mk isVar _ _ _ sub, acc =>
      let acc' := (acc.1 <|> (if mk then some isVar else none), acc.2)
      match sub with
      | some e => find_local_mix e acc'
      | none => acc'
  | .otherE, acc => acc

/-- Result of `type_narrow_cond`: success with the updated scope, the
"else" definitions and the names for which the local-definition
assignability error (typecheck.c:1614-1621) fired, or the rejection by
`type_narrow_error_localdef_mix` (typecheck.c:1435-1445), which reports
the found local's kind (`isVar`) and the found operator. -/
inductive NarrowRes where
  | ok (scope : List NEntry) (elsedefs : List NEntry) (assignErrs : List Nat)
  | rejectedMix (isVar : Option Bool) (op : Option NOp)
deriving DecidableEq, Repr

/-- The per-entry work of the final loop of `type_narrow_cond`
(typecheck.c:1584-1636): read and clear the "negative"/"local" marks,
extract the element type `T` from the optional type found on the entry or
its initializer, for local definitions check assignability against a
declared type (keeping an unresolved declared type as-is), for non-local
entries produce the inverted clone for the `else` scope, and rewrite the
entry's type (`T` if positive, `void` if negative).  Returns the updated
entry, the optional else-definition and the optional name of an
assignability error. -/
def narrow_entry_finalize (c : Config) (wantElse : Bool) (e : NEntry) :
    NEntry × Option NEntry × Option Nat :=
  if !e.narrowed then (e, none, none)
  else
    let isneg := e.mark1
    let islocal := e.mark2
    let e0 := { e with mark1 := false, mark2 := false }
    let oktype0 : Ty := if isOptTy e.ty then e.ty else e.initTy.getD Ty.unknown
    let oktype := optElem oktype0
    if islocal then
      match e.ty with
      | .unresolved n =>
          ({ e0 with ty := if isneg then Ty.void else Ty.unresolved n }, none, none)
      | _ =>
          ({ e0 with ty := if isneg then Ty.void else oktype }, none,
           if e.ty ≠ Ty.unknown && !(type_isassignable c e.ty oktype)
           then some e.name else none)
    else
      ({ e0 with ty := if isneg then Ty.void else oktype },
       if wantElse then some { e0 with ty := if isneg then oktype else Ty.void } else none,
       none)

/-- Translation of `type_narrow_cond` (typecheck.c:1563-1639): run the
walk; if both "has complex op" and "has local definition" were observed,
reject via `type_narrow_error_localdef_mix`; otherwise finalize every
newly defined entry (newest first, the C iteration order), collecting the
else-definitions (only when an `else` branch exists) and any
assignability-error names. -/
def type_narrow_cond (c : Config) (scope : List NEntry) (wantElse : Bool) (cond : NCond) :
    NarrowRes :=
  let r := type_narrow_cond1 scope (false, false) cond
  if r.2.2 = (true, true) then
    let fm := find_local_mix r.1 (none, none)
    .rejectedMix fm.1 fm.2
  else
    let k := r.2.1.length - scope.length
    let results := (r.2.1.take k).map (narrow_entry_finalize c wantElse)
    .ok (results.map (·.1) ++ r.2.1.drop k)
        (results.filterMap (·.2.1))
        (results.filterMap (·.2.2))

/-- Translation of `type_narrow_elsedefs` (typecheck.c:1642-1656): define
each collected else-binding, in order, in the scope entered for the `else`
branch (so the last-defined entry is found first by lookup). -/
def type_narrow_elsedefs (scope : List NEntry) (eds : List NEntry) : List NEntry :=
  eds.foldl (fun s e => e :: s) scope

/-- A struct field as seen by the layout loop of `structtype`
(typecheck.c:1101-1132): the size and alignment of the field's concrete
type (`concrete_type(a->compiler, f->type)`). -/
structure StructField where
  fsize : Nat
  falign : Nat
deriving DecidableEq, Repr

/-- Modelled from the spec: the `ALIGN2` macro (colib.h, which is not
under src/) rounds its first argument up to a multiple of the
(power-of-two) alignment; spec section 4.6: "compute field offset aligned
to field-type alignment", "struct size is the aligned total".  Modelled as
arithmetic round-up, which agrees with the bitmask macro for power-of-two
alignments (and yields 0 for alignment 0, as the macro does). -/
def align2 (n a : Nat) : Nat :=
  ((n + a - 1) / a) * a

/-- The field loop of `structtype` (typecheck.c:1096-1137): running over
the fields in declaration order, each field's offset is the running size
aligned to the field's alignment, the running size continues after the
field, and the struct alignment accumulates the maximum field alignment.
The C `size` and `f->offset` are u64 values with no overflow check, so
every accumulation step wraps modulo 2^64 (the alignment is a u8 and
cannot wrap).  Returns (offsets in declaration order, final running size,
alignment). -/
def structtype_fields (size align : Nat) : List StructField → List Nat × Nat × Nat
  | [] => ([], size, align)
  | f :: fs =>
      let off := align2 size f.falign % 2 ^ 64
      let r := structtype_fields ((off + f.fsize) % 2 ^ 64) (max align f.falign) fs
      (off :: r.1, r.2)

/-- Translation of the layout part of `structtype` (typecheck.c:1090-1148):
field offsets from the loop, struct alignment = max field alignment,
struct size = running total rounded up to the struct alignment
(typecheck.c:1136-1137), again in wrapping u64 arithmetic. -/
def structtype_layout (fields : List StructField) : List Nat × Nat × Nat :=
  let r := structtype_fields 0 0 fields
  (r.1, align2 r.2.1 r.2.2 % 2 ^ 64, r.2.2)

/-- The same field loop without the u64 wrap-around: the mathematical
accumulation, used only to state the no-overflow side condition of the
layout claim and to relate the wrapping loop to it
(`structtype_fields_eq_ideal`).  It is not a source translation. -/
def structtype_fields_ideal (size align : Nat) : List StructField → List Nat × Nat × Nat
  | [] => ([], size, align)
  | f :: fs =>
      let off := align2 size f.falign
      let r := structtype_fields_ideal (off + f.fsize) (max align f.falign) fs
      (off :: r.1, r.2)

/-- The contextual base type used by `intlit` (typecheck.c:2330-2349):
unwrap aliases from the expected type, then replace `int`/`uint` by the
target's configured concrete type (the `goto again` loop). -/
def intlit_basetype (c : Config) (t : Ty) : Ty :=
  match unwrap_alias t with
  | .int => c.intTy
  | .uint => c.uintTy
  | b => b

/-- The range table of `intlit` (typecheck.c:2340-2347): the maximum
magnitude admitted for each sized integer type, with negation (`isneg`)
adjusting the signed upper bound by +1; `none` for non-integer contexts
(which take the default branch). -/
def intlit_maxval (isneg : Bool) : Ty → Option Nat
  | .i8 => some (0x7f + if isneg then 1 else 0)
  | .i16 => some (0x7fff + if isneg then 1 else 0)
  | .i32 => some (0x7fffffff + if isneg then 1 else 0)
  | .i64 => some (0x7fffffffffffffff + if isneg then 1 else 0)
  | .u8 => some 0xff
  | .u16 => some 0xffff
  | .u32 => some 0xffffffff
  | .u64 => some 0xffffffffffffffff
  | _ => none

/-- Translation of `intlit` (typecheck.c:2324-2388) for a fresh literal
(`n->type == type_unknown`): with an integer-typed context (after
`intlit_basetype`) the literal adopts the context type and an
"integer constant overflows" error naming that type is reported exactly
when the value exceeds the range-table maximum; with any other context the
type is picked from the value's magnitude, parameterized by the target's
int size (typecheck.c:2350-2379).  `isneg` is the literal's negation flag,
which the current checker never sets (typecheck.c:2328, `u64 isneg = 0;
// TODO`), so it is fixed to false here; the value is a u64
(`n->intval`).  Returns the literal's type and, on overflow, the type
named by the error. -/
def intlit (c : Config) (typectx : Ty) (intval : Nat) : Ty × Option Ty :=
  match intlit_maxval false (intlit_basetype c typectx) with
  | some maxval => (typectx, if intval > maxval then some typectx else none)
  | none =>
      if c.intsize8 then
        if intval < 0x8000000000000000 then (.int, none)
        else (.u64, if intval > 0xffffffffffffffff then some .u64 else none)
      else
        if intval ≤ 0x7fffffff then (.int, none)
        else if intval ≤ 0xffffffff then (.uint, none)
        else if intval ≤ 0x7fffffffffffffff then (.i64, none)
        else (.u64, if intval > 0xffffffffffffffff then some .u64 else none)

/-- Scope entries seen by name resolution: a type node or a non-type
(expression) node. -/
inductive SNode where
  | tyN (t : Ty)
  | exN (eid : Nat)
deriving DecidableEq, Repr

/-- Translation of `lookup` (typecheck.c:809-828): search the scope stack,
falling back to the package-level definitions (the visibility upgrade and
use counting are not modelled). -/
def lookup_scope_pkg (scope pkg : List (Nat × SNode)) (name : Nat) : Option SNode :=
  match scope.lookup name with
  | some n => some n
  | none => pkg.lookup name

/-- Diagnostics emitted by the resolution failure paths. -/
inductive ResolveDiag where
  | errUnknownIdentifier (name : Nat)
  | helpDidYouMean (name : Nat)
  | errUnknownType (name : Nat)
  | errNotAType (name : Nat)
  | helpDefinedHere (name : Nat)
deriving DecidableEq, Repr

/-- Translation of `unknown_identifier` (typecheck.c:1886-1920): report
the "unknown identifier" error, then emit a help for every exact
didyoumean match (entries are (name, optional other name)); the fuzzy
(edit-distance) fallback emits at most one more help diagnostic and is
abstracted here.  The function changes no scope state. -/
def unknown_identifier (dym : List (Nat × Option Nat)) (name : Nat) : List ResolveDiag :=
  ResolveDiag.errUnknownIdentifier name ::
    (dym.filter (fun d => d.1 = name || d.2 = some name)).map
      (fun d => ResolveDiag.helpDidYouMean d.1)

/-- Translation of `unresolvedtype` (typecheck.c:3436-3478) for a
first-resolution attempt (`resolved == NULL`): look the name up in scope
and package; on a type hit, resolve to it (alias-cycle detection via the
external `check_typedep` is not modelled); otherwise report "unknown
type" (or "X is not a type" with a help when the name is bound to a
non-type) and redefine the name in the current scope bound to the
unresolved type node itself (typecheck.c:3475-3477) to limit repeat
errors.  Returns the resolved type (if any), the updated scope, and the
diagnostics. -/
def unresolvedtype (scope pkg : List (Nat × SNode)) (name : Nat) (hasLoc : Bool) :
    Option Ty × List (Nat × SNode) × List ResolveDiag :=
  match lookup_scope_pkg scope pkg name with
  | some (.tyN t) => (some t, scope, [])
  | some (.exN _) =>
      (none, (name, SNode.tyN (.unresolved name)) :: scope,
       ResolveDiag.errNotAType name ::
         (if hasLoc then [ResolveDiag.helpDefinedHere name] else []))
  | none =>
      (none, (name, SNode.tyN (.unresolved name)) :: scope,
       [ResolveDiag.errUnknownType name])

/-- Whether a resolution-scope binding is an alias to void (what the spec
claims the unknown name is redefined as). -/
def is_void_alias : SNode → Bool
  | .tyN (.aliasT _ .void) => true
  | _ => false

/-- Diagnostics of the special "main" function check. -/
inductive MainDiag where
  | paramsErr
  | resultErr
deriving DecidableEq, Repr

/-- A function signature as consumed by `main_fun`: the parameter count
and the result type of the function type. -/
structure FunSig where
  nparams : Nat
  result : Ty
deriving DecidableEq, Repr

/-- Translation of `main_fun` (typecheck.c:1280-1295): record the function
as the package's main function (`a->pkg->mainfun = n`), then report an
error when the function type has input parameters and an error when the
result type is not void. -/
def main_fun (fid : Nat) (ft : FunSig) : Option Nat × List MainDiag :=
  (some fid,
   (if 0 < ft.nparams then [MainDiag.paramsErr] else []) ++
   (if ft.result ≠ Ty.void then [MainDiag.resultErr] else []))

/-!
Helper lemmas.
-/

/-- Every type node has positive structural size. -/
theorem sizeT_pos (t : Ty) : 0 < sizeT t := by
  cases t <;> simp [sizeT]

/-- Unwrapping never grows a type (the C loop only descends). -/
theorem sizeT_unwrap_le (c : Config) (md : Bool) (t : Ty) :
    sizeT (type_compat_unwrap c md t) ≤ sizeT t := by
  induction t generalizing md with
  | aliasT a e ih =>
      calc sizeT (type_compat_unwrap c md (.aliasT a e)) = sizeT (type_compat_unwrap c md e) := by
            simp [type_compat_unwrap]
        _ ≤ sizeT e := ih md
        _ ≤ sizeT (.aliasT a e) := by simp [sizeT]
  | int => simp only [type_compat_unwrap, Config.intTy]; split <;> simp [sizeT]
  | uint => simp only [type_compat_unwrap, Config.uintTy]; split <;> simp [sizeT]
  | ref e ih =>
      cases md with
      | true =>
          calc sizeT (type_compat_unwrap c true (.ref e)) = sizeT (type_compat_unwrap c false e) := by
                simp [type_compat_unwrap]
            _ ≤ sizeT e := ih false
            _ ≤ sizeT (.ref e) := by simp [sizeT]
      | false => simp [type_compat_unwrap]
  | mutref e ih =>
      cases md with
      | true =>
          calc sizeT (type_compat_unwrap c true (.mutref e)) = sizeT (type_compat_unwrap c false e) := by
                simp [type_compat_unwrap]
            _ ≤ sizeT e := ih false
            _ ≤ sizeT (.mutref e) := by simp [sizeT]
      | false => simp [type_compat_unwrap]
  | _ => simp [type_compat_unwrap]

/-- The no-deref unwrap is idempotent (its image contains no alias and no
int/uint, which are all it rewrites). -/
theorem unwrap_false_idem (c : Config) (t : Ty) :
    type_compat_unwrap c false (type_compat_unwrap c false t) = type_compat_unwrap c false t := by
  induction t with
  | aliasT a e ih => simpa [type_compat_unwrap] using ih
  | int => simp only [type_compat_unwrap, Config.intTy]; split <;> simp [type_compat_unwrap]
  | uint => simp only [type_compat_unwrap, Config.uintTy]; split <;> simp [type_compat_unwrap]
  | _ => simp [type_compat_unwrap]

/-- Reflexivity of the compatibility check at any positive budget (the
`x == y` shortcut of `type_compat`, typecheck.c:232). -/
theorem tcf_refl (c : Config) (a : Bool) (f : Nat) (hf : 0 < f) (x : Ty) :
    type_compat_fuel c a f x x = true := by
  cases f with
  | zero => omega
  | succ f => simp [type_compat_fuel]

/-- A value is assignable to the unwrapped form of its own type (via the
post-unwrap `x == y` shortcut, typecheck.c:287-288). -/
theorem tcf_unwrap_right (c : Config) (f : Nat) (hf : 0 < f) (u : Ty) :
    type_compat_fuel c true f u (type_compat_unwrap c false u) = true := by
  cases f with
  | zero => omega
  | succ f =>
      simp only [type_compat_fuel, Bool.not_true]
      split_ifs with h1 h2
      · rfl
      · rfl
      · exact absurd (unwrap_false_idem c u).symm h2

/-- Acceptance half of the optional-assignability rule: if a type unwraps
to `?u`, then a value of type `u` is assignable to it (the TYPE_OPTIONAL
case of `_type_compat`, typecheck.c:318-325). -/
theorem tcf_opt_left (c : Config) :
    ∀ (f : Nat) (x u : Ty), sizeT x + sizeT u ≤ f →
      type_compat_unwrap c false x = Ty.opt u →
      type_compat_fuel c true f x u = true := by
  intro f
  induction f with
  | zero =>
      intro x u h hx
      have := sizeT_pos x
      have := sizeT_pos u
      omega
  | succ f ih =>
      intro x u hsz hx
      have hxle := sizeT_unwrap_le c false x
      rw [hx] at hxle
      simp only [sizeT] at hxle
      have hupos := sizeT_pos u
      simp only [type_compat_fuel, Bool.not_true]
      split_ifs with h1 h2
      · rfl
      · rfl
      · rw [hx]
        have huule := sizeT_unwrap_le c false u
        cases hUu : type_compat_unwrap c false u
        all_goals rw [hUu] at huule
        all_goals simp only [sizeT] at huule
        all_goals first
          | (exact ih u _ (by omega) hUu)
          | (have hr := tcf_unwrap_right c f (by omega) u; rw [hUu] at hr; exact hr)

/-- Deref-unwrapping leaves an optional type alone (optionals are not in
the unwrap loop of `type_compat_unwrap`). -/
theorem unwrap_true_opt (c : Config) (x : Ty) :
    type_compat_unwrap c true (Ty.opt x) = Ty.opt x := by
  simp [type_compat_unwrap]

/-- Rejection half of the optional-assignability rule: a value whose type
unwraps to `?x` is never assignable to a target of type `x` (no case of
`_type_compat` strips an optional from the right side when the left is not
optional). -/
theorem tcf_opt_right (c : Config) :
    ∀ (f : Nat) (x y : Ty), type_compat_unwrap c false y = Ty.opt x →
      type_compat_fuel c true f x y = false := by
  intro f
  induction f with
  | zero => intro x y _; simp [type_compat_fuel]
  | succ f ih =>
      intro x y hy
      have hyle := sizeT_unwrap_le c false y
      rw [hy] at hyle
      simp only [sizeT] at hyle
      simp only [type_compat_fuel, Bool.not_true]
      split_ifs with h1 h2
      · exfalso
        subst h1
        have := sizeT_unwrap_le c false x
        rw [hy] at this
        simp only [sizeT] at this
        omega
      · exfalso
        rw [hy] at h2
        have := sizeT_unwrap_le c false x
        rw [h2] at this
        simp only [sizeT] at this
        omega
      · rw [hy]
        cases hUx : type_compat_unwrap c false x
        all_goals first
          | (exact ih _ _ hUx)
          | (simp [unwrap_true_opt])

/-- Membership from a successful association-list lookup. -/
theorem lookup_mem {α β : Type} [BEq α] [LawfulBEq α] {k : α} {v : β} :
    ∀ {l : List (α × β)}, l.lookup k = some v → (k, v) ∈ l := by
  intro l
  induction l with
  | nil => intro h; simp [List.lookup] at h
  | cons p ps ih =>
      intro h
      simp only [List.lookup] at h
      cases hk : k == p.1
      case true =>
        rw [hk] at h
        have hv : p.2 = v := Option.some.inj h
        have hkk : k = p.1 := eq_of_beq hk
        rw [hkk, ← hv]
        simp
      case false =>
        rw [hk] at h
        exact List.mem_cons_of_mem _ (ih h)

/-- Well-formed interner: every map entry is keyed by its node's type id
(an invariant of `intern_usertype`, which only inserts such pairs). -/
def InternState.Wf (st : InternState) : Prop :=
  ∀ p ∈ st.typeidmap, p.1 = typeid p.2.ty

/-- Interning preserves well-formedness. -/
theorem intern_usertype_wf (st : InternState) (n : TNode) (h : st.Wf) :
    (intern_usertype st n).2.2.Wf := by
  simp only [intern_usertype]
  cases hl : st.typeidmap.lookup (typeid n.ty)
  · intro p hp
    simp only [List.mem_cons] at hp
    rcases hp with rfl | hp
    · rfl
    · exact h p hp
  · exact h

/-- Interner entries are never overwritten: an existing binding survives
any later `intern_usertype` call. -/
theorem intern_lookup_mono (st : InternState) (n : TNode) (k : List Nat) (v : TNode)
    (h : st.typeidmap.lookup k = some v) :
    (intern_usertype st n).2.2.typeidmap.lookup k = some v := by
  simp only [intern_usertype]
  cases hl : st.typeidmap.lookup (typeid n.ty)
  · have hk : k ≠ typeid n.ty := by
      intro e
      rw [e, hl] at h
      cases h
    have hb : (k == typeid n.ty) = false := beq_eq_false_iff_ne.mpr hk
    simp only [List.lookup, hb]
    exact h
  · exact h

/-- After interning, the returned canonical node is what the map holds at
its type id. -/
theorem intern_usertype_post (st : InternState) (n : TNode) (h : st.Wf) :
    (intern_usertype st n).2.2.typeidmap.lookup (typeid (intern_usertype st n).2.1.ty)
      = some (intern_usertype st n).2.1 := by
  simp only [intern_usertype]
  cases hl : st.typeidmap.lookup (typeid n.ty) with
  | some p =>
      have hmem := lookup_mem hl
      have := h _ hmem
      simp only at this
      rw [← this]
      exact hl
  | none => simp [List.lookup]

/-- A run of interning calls preserves well-formedness. -/
theorem intern_run_wf (ns : List TNode) : ∀ (st : InternState), st.Wf → (intern_run st ns).1.Wf := by
  induction ns with
  | nil => intro st h; exact h
  | cons n ns ih =>
      intro st h
      exact ih _ (intern_usertype_wf st n h)

/-- A run of interning calls never drops a map binding. -/
theorem intern_run_mono (ns : List TNode) :
    ∀ (st : InternState) (k : List Nat) (v : TNode), st.typeidmap.lookup k = some v →
      (intern_run st ns).1.typeidmap.lookup k = some v := by
  induction ns with
  | nil => intro st k v h; exact h
  | cons n ns ih =>
      intro st k v h
      exact ih _ _ _ (intern_lookup_mono st n k v h)

/-- Every canonical node handed out during a run is what the final map
holds at its type id. -/
theorem intern_run_outputs (ns : List TNode) :
    ∀ (st : InternState), st.Wf → ∀ o ∈ (intern_run st ns).2,
      (intern_run st ns).1.typeidmap.lookup (typeid o.ty) = some o := by
  induction ns with
  | nil => intro st _ o ho; simp [intern_run] at ho
  | cons n ns ih =>
      intro st hwf o ho
      simp only [intern_run, List.mem_cons] at ho
      rcases ho with rfl | ho
      · exact intern_run_mono ns _ _ _ (intern_usertype_post st n hwf)
      · exact ih _ (intern_usertype_wf st n hwf) o ho

/-- Rounding up stays at or above the input when the alignment is
positive. -/
theorem align2_ge (n a : Nat) (ha : 0 < a) : n ≤ align2 n a := by
  by_contra hcon
  push_neg at hcon
  unfold align2 at hcon
  have hexp : ((n + a - 1) / a + 1) * a = (n + a - 1) / a * a + a := by ring
  have h2 : ((n + a - 1) / a + 1) * a ≤ n + a - 1 := by omega
  have h3 := (Nat.le_div_iff_mul_le ha).mpr h2
  omega

/-- Rounding up yields a multiple of the alignment. -/
theorem align2_dvd (n a : Nat) : a ∣ align2 n a :=
  dvd_mul_left a ((n + a - 1) / a)

/-- The invariants of the ideal (non-wrapping) field-layout loop: all
offsets are at or beyond the starting size, offsets are monotone, each
offset is a multiple of its field alignment, and the accumulated
alignment is the running maximum. -/
theorem structtype_fields_ideal_spec :
    ∀ (fields : List StructField) (size align : Nat),
      (∀ f ∈ fields, 0 < f.falign) →
      (∀ o ∈ (structtype_fields_ideal size align fields).1, size ≤ o) ∧
      List.Chain' (· ≤ ·) (structtype_fields_ideal size align fields).1 ∧
      (∀ p ∈ (structtype_fields_ideal size align fields).1.zip fields, p.2.falign ∣ p.1) ∧
      (structtype_fields_ideal size align fields).2.2
        = fields.foldl (fun a f => max a f.falign) align := by
  intro fields
  induction fields with
  | nil =>
      intro size align _
      simp [structtype_fields_ideal]
  | cons f fs ih =>
      intro size align h
      have hf : 0 < f.falign := h f (by simp)
      have hfs : ∀ g ∈ fs, 0 < g.falign := fun g hg => h g (by simp [hg])
      obtain ⟨ih1, ih2, ih3, ih4⟩ := ih (align2 size f.falign + f.fsize) (max align f.falign) hfs
      have hge := align2_ge size f.falign hf
      simp only [structtype_fields_ideal]
      refine ⟨?_, ?_, ?_, ?_⟩
      · intro o ho
        simp only [List.mem_cons] at ho
        rcases ho with rfl | ho
        · exact hge
        · have := ih1 o ho
          omega
      · rw [List.chain'_cons']
        refine ⟨?_, ih2⟩
        intro hd hhd
        have hmem := List.mem_of_mem_head? hhd
        have := ih1 hd hmem
        omega
      · intro p hp
        simp only [List.zip_cons_cons, List.mem_cons] at hp
        rcases hp with rfl | hp
        · exact align2_dvd size f.falign
        · exact ih3 p hp
      · simpa using ih4

/-- The ideal running size never decreases across the loop. -/
theorem ideal_size_mono :
    ∀ (fields : List StructField) (size align : Nat),
      (∀ f ∈ fields, 0 < f.falign) →
      size ≤ (structtype_fields_ideal size align fields).2.1 := by
  intro fields
  induction fields with
  | nil => intro size align _; simp [structtype_fields_ideal]
  | cons f fs ih =>
      intro size align h
      have hf : 0 < f.falign := h f (by simp)
      have hfs : ∀ g ∈ fs, 0 < g.falign := fun g hg => h g (by simp [hg])
      have h1 := align2_ge size f.falign hf
      have h2 := ih (align2 size f.falign + f.fsize) (max align f.falign) hfs
      simp only [structtype_fields_ideal]
      omega

/-- The accumulated alignment never decreases across the loop. -/
theorem ideal_align_ge :
    ∀ (fields : List StructField) (size align : Nat),
      align ≤ (structtype_fields_ideal size align fields).2.2 := by
  intro fields
  induction fields with
  | nil => intro size align; simp [structtype_fields_ideal]
  | cons f fs ih =>
      intro size align
      simp only [structtype_fields_ideal]
      exact le_trans (le_max_left _ _) (ih _ _)

/-- As long as the ideal running total stays below 2^64, the wrapping u64
loop computes exactly the ideal values (no step wraps). -/
theorem structtype_fields_eq_ideal :
    ∀ (fields : List StructField) (size align : Nat),
      (∀ f ∈ fields, 0 < f.falign) → size < 2 ^ 64 →
      (structtype_fields_ideal size align fields).2.1 < 2 ^ 64 →
      structtype_fields size align fields = structtype_fields_ideal size align fields := by
  intro fields
  induction fields with
  | nil => intro size align _ _ _; rfl
  | cons f fs ih =>
      intro size align h hsz hfin
      have hf : 0 < f.falign := h f (by simp)
      have hfs : ∀ g ∈ fs, 0 < g.falign := fun g hg => h g (by simp [hg])
      have hX : (structtype_fields_ideal (align2 size f.falign + f.fsize)
          (max align f.falign) fs).2.1 < 2 ^ 64 := by
        have : (structtype_fields_ideal (align2 size f.falign + f.fsize)
            (max align f.falign) fs).2.1
            = (structtype_fields_ideal size align (f :: fs)).2.1 := by
          simp [structtype_fields_ideal]
        rw [this]
        exact hfin
      have hmono := ideal_size_mono fs (align2 size f.falign + f.fsize) (max align f.falign) hfs
      have hoff : align2 size f.falign % 2 ^ 64 = align2 size f.falign :=
        Nat.mod_eq_of_lt (by omega)
      simp only [structtype_fields, structtype_fields_ideal]
      rw [hoff]
      have hnext : (align2 size f.falign + f.fsize) % 2 ^ 64
          = align2 size f.falign + f.fsize := Nat.mod_eq_of_lt (by omega)
      rw [hnext, ih (align2 size f.falign + f.fsize) (max align f.falign) hfs (by omega) hX]

/-- The shape of the narrowing walk on `if !^k x` for an optional-typed
binding `x : ?T`: a single narrowed clone of the referenced binding is
defined, its "negative" mark is the parity of `k`, and "has complex op"
is recorded exactly when at least one `!` is present. -/
theorem type_narrow_cond1_notChain (k name : Nat) (rk : EKind) (T : Ty) (f : Bool × Bool) :
    type_narrow_cond1 [] f (notChain k (NCond.idRef false name rk (Ty.opt T) none)) =
      (notChain k (NCond.idRef true name rk (Ty.opt T) none),
       [⟨name, rk, Ty.opt T, none, true, decide (k % 2 = 1), false⟩],
       (if k = 0 then f else (true, f.2))) := by
  induction k generalizing f with
  | zero =>
      simp [notChain, type_narrow_cond1, isOptTy, scope_lookup0]
  | succ k ih =>
      simp only [notChain, type_narrow_cond1]
      rw [ih (true, f.2)]
      simp only [toggle_new, List.length_cons, List.length_nil]
      have hpar : ((k + 1) % 2 = 1) ↔ ¬(k % 2 = 1) := by omega
      by_cases hk : k % 2 = 1
      · simp [hk, hpar, List.take, List.drop]
      · simp [hk, hpar, List.take, List.drop]

/-!
Claim theorems.
-/

/-- C1.  For a conditional on `!^k x` where `x` is a binding of optional
type `?T`, the narrower (`type_narrow_cond`, run by `ifexpr` with an
else-definitions accumulator when an `else` branch exists) succeeds and
defines, in the scope of the `then` branch, a binding for `x` of type `T`
when the number of `!` is even (in particular `if x`) and `void` when it
is odd (in particular `if !x`); the else-definitions installed into the
`else` scope by `type_narrow_elsedefs` carry the inverted type: `void`
for even, `T` for odd. -/
theorem claim_C1 (c : Config) (k name : Nat) (rk : EKind) (T : Ty) :
    type_narrow_cond c [] true (notChain k (NCond.idRef false name rk (Ty.opt T) none)) =
      NarrowRes.ok [⟨name, rk, (if k % 2 = 1 then Ty.void else T), none, true, false, false⟩]
        [⟨name, rk, (if k % 2 = 1 then T else Ty.void), none, true, false, false⟩] [] ∧
    scope_lookup0 (type_narrow_elsedefs []
        [⟨name, rk, (if k % 2 = 1 then T else Ty.void), none, true, false, false⟩]) name =
      some ⟨name, rk, (if k % 2 = 1 then T else Ty.void), none, true, false, false⟩ := by
  constructor
  · simp only [type_narrow_cond]
    rw [type_narrow_cond1_notChain]
    have hflag : (if k = 0 then ((false : Bool), (false : Bool)) else (true, false)) ≠ (true, true) := by
      split <;> simp
    rw [if_neg hflag]
    simp only [List.length_cons, List.length_nil, List.take, List.drop]
    by_cases hk : k % 2 = 1 <;>
      simp [narrow_entry_finalize, isOptTy, optElem, hk]
  · simp [type_narrow_elsedefs, scope_lookup0, List.find?]

/-- C2.  Template instantiation is memoized and idempotent: after a first
use of a template with arguments whose completed type-id concatenation is
some key, a second use with an equal key returns the pointer-identical
instance node found in the memoization map, leaves the state unchanged,
and performs no second expansion. -/
theorem claim_C2 (st : TemplateIState) (t : Template) (args1 args2 : List Ty)
    (h : typeid_concat (template_args_complete t args1)
         = typeid_concat (template_args_complete t args2)) :
    (instantiate_templatetype (instantiate_templatetype st t args1).2 t args2).1
      = (instantiate_templatetype st t args1).1 ∧
    (instantiate_templatetype (instantiate_templatetype st t args1).2 t args2).2
      = (instantiate_templatetype st t args1).2 ∧
    templateimap_lookup (instantiate_templatetype st t args1).2 t (template_args_complete t args2)
      = some (instantiate_templatetype st t args1).1 ∧
    (instantiate_templatetype (instantiate_templatetype st t args1).2 t args2).2.nexpand
      = (instantiate_templatetype st t args1).2.nexpand := by
  simp only [instantiate_templatetype, templateimap_lookup]
  rw [← h]
  cases hl : st.templateimap.lookup (t.tid, typeid_concat (template_args_complete t args1)) with
  | some i => simp [hl]
  | none => simp [hl, List.lookup]

/-- Witness for C2 at a concrete template and argument list. -/
theorem claim_C2_witness :
    (instantiate_templatetype
        (instantiate_templatetype ⟨[], 0, 100⟩ ⟨7, []⟩ [Ty.bool]).2 ⟨7, []⟩ [Ty.bool]).1
      = (instantiate_templatetype ⟨[], 0, 100⟩ ⟨7, []⟩ [Ty.bool]).1 :=
  (claim_C2 ⟨[], 0, 100⟩ ⟨7, []⟩ [Ty.bool] [Ty.bool] rfl).1

/-- C3 counterexample.  The claim's universal interning invariant is
false on the code as stated: checking two identical string literals in a
non-`str` context synthesizes two structurally equal `&[u8 2]` user-type
nodes (`strlit` allocates fresh array and ref nodes) that are distinct
nodes and are never interned, so structural equality of user types
reached by checking does not imply pointer equality. -/
theorem claim_C3_counterexample :
    ((strlit 0 ⟨1, Ty.int⟩ 2 ⟨10, ⟨[]⟩⟩).1.ty
      = (strlit 0 ⟨1, Ty.int⟩ 2 (strlit 0 ⟨1, Ty.int⟩ 2 ⟨10, ⟨[]⟩⟩).2).1.ty) ∧
    ((strlit 0 ⟨1, Ty.int⟩ 2 ⟨10, ⟨[]⟩⟩).1
      ≠ (strlit 0 ⟨1, Ty.int⟩ 2 (strlit 0 ⟨1, Ty.int⟩ 2 ⟨10, ⟨[]⟩⟩).2).1) ∧
    ((strlit 0 ⟨1, Ty.int⟩ 2 ⟨10, ⟨[]⟩⟩).1.nid
      ≠ (strlit 0 ⟨1, Ty.int⟩ 2 (strlit 0 ⟨1, Ty.int⟩ 2 ⟨10, ⟨[]⟩⟩).2).1.nid) ∧
    ((strlit 0 ⟨1, Ty.int⟩ 2 (strlit 0 ⟨1, Ty.int⟩ 2 ⟨10, ⟨[]⟩⟩).2).2.intern.typeidmap
      = []) := by
  decide

/-- C3 (amended).  The intern operation behaves as claimed: when the
computed type id is already mapped it replaces the caller's pointer slot
with the canonical node and returns false (not added), and when absent it
inserts the node and returns true (added); and the interning invariant
holds for the types that pass through `intern_usertype`: any two
canonical nodes returned during a run from an empty interner whose
structural type ids are equal are the same node.  (The invariant does not
extend to user types synthesized outside the interner, such as string
literal types; see the counterexample.) -/
theorem claim_C3 (st : InternState) (n : TNode) (ns : List TNode) :
    (∀ p, st.typeidmap.lookup (typeid n.ty) = some p → intern_usertype st n = (false, p, st)) ∧
    (st.typeidmap.lookup (typeid n.ty) = none →
       intern_usertype st n = (true, n, ⟨(typeid n.ty, n) :: st.typeidmap⟩)) ∧
    (∀ o1 o2, o1 ∈ (intern_run ⟨[]⟩ ns).2 → o2 ∈ (intern_run ⟨[]⟩ ns).2 →
       typeid o1.ty = typeid o2.ty → o1 = o2) := by
  refine ⟨?_, ?_, ?_⟩
  · intro p hp
    simp [intern_usertype, hp]
  · intro hp
    simp [intern_usertype, hp]
  · intro o1 o2 h1 h2 hid
    have hwf : InternState.Wf ⟨[]⟩ := by intro p hp; simp at hp
    have l1 := intern_run_outputs ns ⟨[]⟩ hwf o1 h1
    have l2 := intern_run_outputs ns ⟨[]⟩ hwf o2 h2
    rw [hid] at l1
    rw [l1] at l2
    exact Option.some.inj l2

/-- Witness for C3 at a concrete interning call on an empty map. -/
theorem claim_C3_witness :
    intern_usertype ⟨[]⟩ ⟨5, Ty.ptr .i8⟩
      = (true, ⟨5, Ty.ptr .i8⟩, ⟨[(typeid (Ty.ptr .i8), ⟨5, Ty.ptr .i8⟩)]⟩) :=
  (claim_C3 ⟨[]⟩ ⟨5, Ty.ptr .i8⟩ []).2.1 rfl

/-- C4.  The assignability check follows the rules of `_type_compat`: for
every type `T`, a value of type `T` is assignable to a target of type
`?T`; a value of type `?T` is not assignable to a target of type `T`; a
value of type `mut&T` is assignable to a target of type `&T`; and a value
of type `&T` is not assignable to a target of type `mut&T`. -/
theorem claim_C4 (c : Config) (T : Ty) :
    type_isassignable c (.opt T) T = true ∧
    type_isassignable c T (.opt T) = false ∧
    type_isassignable c (.ref T) (.mutref T) = true ∧
    type_isassignable c (.mutref T) (.ref T) = false := by
  refine ⟨?_, ?_, ?_, ?_⟩
  · exact tcf_opt_left c _ _ _ (le_refl _) (by simp [type_compat_unwrap])
  · exact tcf_opt_right c _ _ _ (by simp [type_compat_unwrap])
  · show type_compat_fuel c true (sizeT (Ty.ref T) + sizeT (Ty.mutref T)) (Ty.ref T) (Ty.mutref T) = true
    have hb : sizeT (Ty.ref T) + sizeT (Ty.mutref T) = (sizeT T + sizeT T + 1) + 1 := by
      show 1 + sizeT T + (1 + sizeT T) = sizeT T + sizeT T + 1 + 1
      omega
    rw [hb]
    have hstep : type_compat_fuel c true ((sizeT T + sizeT T + 1) + 1) (Ty.ref T) (Ty.mutref T)
        = type_compat_fuel c true (sizeT T + sizeT T + 1) T T := rfl
    rw [hstep]
    exact tcf_refl c true _ (by omega) T
  · show type_compat_fuel c true (sizeT (Ty.mutref T) + sizeT (Ty.ref T)) (Ty.mutref T) (Ty.ref T) = false
    have hb : sizeT (Ty.mutref T) + sizeT (Ty.ref T) = (sizeT T + sizeT T + 1) + 1 := by
      show 1 + sizeT T + (1 + sizeT T) = sizeT T + sizeT T + 1 + 1
      omega
    rw [hb]
    rfl

/-- C5.  For an integer literal under a contextually expected integer
type (aliases unwrapped, int/uint replaced by the configured concrete
widths), the literal keeps the context type and the overflow error naming
that type is reported exactly when the value exceeds the range-table
maximum; the table is 0x7f/0xff for i8/u8, 0x7fff/0xffff for i16/u16, and
so on up to u64, with negation raising each signed bound by 1; in
particular `let a: i8 = 128` reports "integer constant overflows i8". -/
theorem claim_C5 (c : Config) (ctx : Ty) (v m : Nat)
    (hm : intlit_maxval false (intlit_basetype c ctx) = some m) :
    ((intlit c ctx v).1 = ctx ∧
     ((intlit c ctx v).2 ≠ none ↔ m < v) ∧
     (intlit c ctx v).2 = (if m < v then some ctx else none)) ∧
    (intlit_maxval false .i8 = some 0x7f ∧ intlit_maxval false .u8 = some 0xff ∧
     intlit_maxval false .i16 = some 0x7fff ∧ intlit_maxval false .u16 = some 0xffff ∧
     intlit_maxval false .i32 = some 0x7fffffff ∧ intlit_maxval false .u32 = some 0xffffffff ∧
     intlit_maxval false .i64 = some 0x7fffffffffffffff ∧
     intlit_maxval false .u64 = some 0xffffffffffffffff) ∧
    (intlit_maxval true .i8 = some 0x80 ∧ intlit_maxval true .i16 = some 0x8000 ∧
     intlit_maxval true .i32 = some 0x80000000 ∧
     intlit_maxval true .i64 = some 0x8000000000000000 ∧
     intlit_maxval true .u8 = some 0xff ∧ intlit_maxval true .u16 = some 0xffff ∧
     intlit_maxval true .u32 = some 0xffffffff ∧
     intlit_maxval true .u64 = some 0xffffffffffffffff) ∧
    intlit c Ty.i8 128 = (Ty.i8, some Ty.i8) := by
  refine ⟨⟨?_, ?_, ?_⟩, by decide, by decide, ?_⟩
  · simp only [intlit, hm]
  · simp only [intlit, hm]
    by_cases hlt : m < v <;> simp [hlt]
  · simp only [intlit, hm]
  · have hb : intlit_basetype c Ty.i8 = Ty.i8 := by
      simp [intlit_basetype, unwrap_alias]
    simp [intlit, hb, intlit_maxval]

/-- Witness for C5: scenario S3, `let a: i8 = 128`, on a 64-bit target. -/
theorem claim_C5_witness :
    intlit ⟨true, 8⟩ Ty.i8 128 = (Ty.i8, some Ty.i8) :=
  (claim_C5 ⟨true, 8⟩ Ty.i8 128 127 (by decide)).2.2.2

/-- C6.  The narrower rejects a condition (with the error naming the
local's kind and the offending operator) exactly when the walk observed
both a complex operator (`||` or `!`) and a narrowing local definition in
the same condition; a condition with only one of the two is not rejected
this way.  The concrete conjunct shows the shape of scenario S6: a
narrowing `let` combined with `||` is rejected with kind "let" and
operator "||". -/
theorem claim_C6 (c : Config) (scope : List NEntry) (wantElse : Bool) (cond : NCond) :
    ((∃ l o, type_narrow_cond c scope wantElse cond = NarrowRes.rejectedMix l o) ↔
      (type_narrow_cond1 scope (false, false) cond).2.2 = (true, true)) ∧
    type_narrow_cond ⟨true, 8⟩ [] false
        (NCond.landE (NCond.letdef false false 2 (Ty.opt .int) (some (Ty.opt .int)) none)
          (NCond.lorE (NCond.idRef false 1 .paramE (Ty.opt .int) none) NCond.otherE))
      = NarrowRes.rejectedMix (some false) (some NOp.orOp) := by
  constructor
  · constructor
    · rintro ⟨l, o, he⟩
      by_contra h
      simp only [type_narrow_cond] at he
      rw [if_neg h] at he
      cases he
    · intro h
      refine ⟨(find_local_mix (type_narrow_cond1 scope (false, false) cond).1 (none, none)).1,
              (find_local_mix (type_narrow_cond1 scope (false, false) cond).1 (none, none)).2, ?_⟩
      simp only [type_narrow_cond]
      rw [if_pos h]
  · decide

/-- C7 counterexample.  The layout loop accumulates offsets and sizes in
wrapping u64 arithmetic with no overflow check, so the claimed offset
monotonicity fails as stated: a struct whose first field has size
2^64 - 8 with alignment 8 (e.g. a `[u64 2305843009213693951]` array
field, which passes the only overflow check in `arraytype`, the length
multiplication at typecheck.c:1159) followed by two small 8-aligned
fields gets offsets [0, 2^64-8, 8] — the third offset wraps below the
second. -/
theorem claim_C7_counterexample :
    (structtype_layout [⟨2 ^ 64 - 8, 8⟩, ⟨16, 8⟩, ⟨8, 8⟩]).1 = [0, 2 ^ 64 - 8, 8] ∧
    ¬ List.Chain' (· ≤ ·) (structtype_layout [⟨2 ^ 64 - 8, 8⟩, ⟨16, 8⟩, ⟨8, 8⟩]).1 := by
  have hoff : (structtype_layout [⟨2 ^ 64 - 8, 8⟩, ⟨16, 8⟩, ⟨8, 8⟩]).1
      = [0, 2 ^ 64 - 8, 8] := by decide
  refine ⟨hoff, ?_⟩
  rw [hoff]
  intro hchain
  rw [List.chain'_cons, List.chain'_cons] at hchain
  have : (2 : Nat) ^ 64 - 8 ≤ 8 := hchain.2.1
  omega

/-- C7 (amended).  After a struct type is checked, provided the layout
computation does not overflow u64 (the ideal aligned running total stays
below 2^64), its field offsets are monotone non-decreasing in declaration
order, every offset is a multiple of its field's concrete alignment, the
struct alignment is the maximum field alignment, and the struct size is
the running total rounded up to (hence a multiple of) the struct
alignment.  Without that bound the u64 accumulation wraps and
monotonicity can fail (see the counterexample). -/
theorem claim_C7 (fields : List StructField) (h : ∀ f ∈ fields, 0 < f.falign)
    (hof : align2 (structtype_fields_ideal 0 0 fields).2.1
             (structtype_fields_ideal 0 0 fields).2.2 < 2 ^ 64) :
    List.Chain' (· ≤ ·) (structtype_layout fields).1 ∧
    (∀ p ∈ (structtype_layout fields).1.zip fields, p.2.falign ∣ p.1) ∧
    (structtype_layout fields).2.2 = fields.foldl (fun a f => max a f.falign) 0 ∧
    (structtype_layout fields).2.2 ∣ (structtype_layout fields).2.1 ∧
    (structtype_layout fields).2.1
      = align2 (structtype_fields_ideal 0 0 fields).2.1 (structtype_layout fields).2.2 := by
  have hfin : (structtype_fields_ideal 0 0 fields).2.1 < 2 ^ 64 := by
    cases fields with
    | nil =>
        simp only [structtype_fields_ideal]
        positivity
    | cons f fs =>
        have hf : 0 < f.falign := h f (by simp)
        have hal : 0 < (structtype_fields_ideal 0 0 (f :: fs)).2.2 := by
          have hga := ideal_align_ge fs (align2 0 f.falign + f.fsize) (max 0 f.falign)
          have hmx : f.falign ≤ max 0 f.falign := le_max_right _ _
          simp only [structtype_fields_ideal]
          omega
        have hge := align2_ge (structtype_fields_ideal 0 0 (f :: fs)).2.1
          (structtype_fields_ideal 0 0 (f :: fs)).2.2 hal
        omega
  have heq := structtype_fields_eq_ideal fields 0 0 h (by positivity) hfin
  obtain ⟨h1, h2, h3, h4⟩ := structtype_fields_ideal_spec fields 0 0 h
  have hsz := Nat.mod_eq_of_lt hof
  simp only [structtype_layout, heq, hsz]
  exact ⟨h2, h3, h4, align2_dvd _ _, trivial⟩

/-- Witness for C7 at a concrete two-field struct (a u8 field followed by
an i32 field), whose layout stays far below 2^64. -/
theorem claim_C7_witness :
    (structtype_layout [⟨1, 1⟩, ⟨4, 4⟩]).2.2 ∣ (structtype_layout [⟨1, 1⟩, ⟨4, 4⟩]).2.1 :=
  (claim_C7 [⟨1, 1⟩, ⟨4, 4⟩] (by decide) (by decide)).2.2.2.1

/-- C8 counterexample.  The claim says the synthesized `&[u8 N]` string
literal type is interned; on the code `strlit` never touches the
interner: after checking a string literal of length 3 under a non-`str`
context the interner map is still empty and holds nothing at the
synthesized type's id. -/
theorem claim_C8_counterexample :
    (strlit 0 ⟨1, Ty.int⟩ 3 ⟨10, ⟨[]⟩⟩).1.ty = Ty.ref (.array 3 .u8) ∧
    (strlit 0 ⟨1, Ty.int⟩ 3 ⟨10, ⟨[]⟩⟩).2.intern.typeidmap = [] ∧
    ((strlit 0 ⟨1, Ty.int⟩ 3 ⟨10, ⟨[]⟩⟩).2.intern.typeidmap.lookup
        (typeid ((strlit 0 ⟨1, Ty.int⟩ 3 ⟨10, ⟨[]⟩⟩).1.ty)) = none) := by
  decide

/-- C8 (amended).  For a string literal: if the expected type is the
configured `str` alias node, the literal adopts it unchanged; otherwise
the checker synthesizes a fresh `&[u8 N]` reference-to-array-of-u8 type
(N the literal length) from newly allocated nodes, and does not intern
it: the interner state is unchanged. -/
theorem claim_C8 (strNid : Nat) (ctx : TNode) (len : Nat) (st : CheckSt) :
    (ctx.nid = strNid → strlit strNid ctx len st = (ctx, st)) ∧
    (ctx.nid ≠ strNid →
       (strlit strNid ctx len st).1.ty = Ty.ref (.array len .u8) ∧
       (strlit strNid ctx len st).2.intern = st.intern ∧
       (strlit strNid ctx len st).2.nextid = st.nextid + 2 ∧
       (strlit strNid ctx len st).1.nid = st.nextid + 1) := by
  constructor
  · intro h
    simp [strlit, h]
  · intro h
    simp [strlit, h]

/-- Witness for C8 at a concrete non-`str` context. -/
theorem claim_C8_witness :
    (strlit 0 ⟨1, Ty.int⟩ 4 ⟨0, ⟨[]⟩⟩).1.ty = Ty.ref (.array 4 .u8) ∧
    (strlit 0 ⟨1, Ty.int⟩ 4 ⟨0, ⟨[]⟩⟩).2.intern = InternState.mk [] ∧
    (strlit 0 ⟨1, Ty.int⟩ 4 ⟨0, ⟨[]⟩⟩).2.nextid = 0 + 2 ∧
    (strlit 0 ⟨1, Ty.int⟩ 4 ⟨0, ⟨[]⟩⟩).1.nid = 0 + 1 :=
  (claim_C8 0 ⟨1, Ty.int⟩ 4 ⟨0, ⟨[]⟩⟩).2 (by decide)

/-- C9 counterexample.  The claim says an unresolved name is redefined in
its scope as a void alias; on the code, an unresolved type name is
redefined bound to the unresolved type node itself (not an alias to
void), and an unknown value identifier is not redefined at all
(`unknown_identifier` only emits diagnostics). -/
theorem claim_C9_counterexample :
    (unresolvedtype [] [] 5 false).2.1 = [(5, SNode.tyN (.unresolved 5))] ∧
    ((unresolvedtype [] [] 5 false).2.1.lookup 5).map is_void_alias = some false ∧
    (unresolvedtype [] [] 5 false).2.2 = [ResolveDiag.errUnknownType 5] ∧
    unknown_identifier [] 5 = [ResolveDiag.errUnknownIdentifier 5] := by
  decide

/-- C9 (amended).  Resolution does not silently fail: an unresolved type
name produces an "unknown type" error and is redefined in the current
scope bound to the unresolved type node itself (so later lookups of the
name hit that binding instead of failing again), and an unknown value
identifier produces an "unknown identifier" error (with didyoumean
helps) without any redefinition. -/
theorem claim_C9 (scope pkg : List (Nat × SNode)) (name : Nat) (hasLoc : Bool)
    (dym : List (Nat × Option Nat))
    (hmiss : lookup_scope_pkg scope pkg name = none) :
    (unresolvedtype scope pkg name hasLoc).2.2 = [ResolveDiag.errUnknownType name] ∧
    (unresolvedtype scope pkg name hasLoc).2.1 = (name, SNode.tyN (.unresolved name)) :: scope ∧
    lookup_scope_pkg (unresolvedtype scope pkg name hasLoc).2.1 pkg name
      = some (SNode.tyN (.unresolved name)) ∧
    (unknown_identifier dym name).head? = some (ResolveDiag.errUnknownIdentifier name) := by
  refine ⟨?_, ?_, ?_, rfl⟩
  · simp [unresolvedtype, hmiss]
  · simp [unresolvedtype, hmiss]
  · simp only [unresolvedtype, hmiss]
    simp [lookup_scope_pkg, List.lookup]

/-- Witness for C9 at a concrete empty scope. -/
theorem claim_C9_witness :
    (unresolvedtype [] [] 3 false).2.2 = [ResolveDiag.errUnknownType 3] :=
  (claim_C9 [] [] 3 false [] rfl).1

/-- C10.  A function recognized as the special "main" function is
recorded as the package's main function; an error is emitted exactly when
its function type has one or more parameters, and an error exactly when
its result type is not void; a parameterless void main yields no
diagnostics. -/
theorem claim_C10 (fid : Nat) (ft : FunSig) :
    (main_fun fid ft).1 = some fid ∧
    (MainDiag.paramsErr ∈ (main_fun fid ft).2 ↔ 0 < ft.nparams) ∧
    (MainDiag.resultErr ∈ (main_fun fid ft).2 ↔ ft.result ≠ Ty.void) ∧
    (ft.nparams = 0 → ft.result = Ty.void → (main_fun fid ft).2 = []) := by
  refine ⟨rfl, ?_, ?_, ?_⟩
  · simp only [main_fun]
    split <;> split <;> simp_all
  · simp only [main_fun]
    split <;> split <;> simp_all
  · intro h1 h2
    simp [main_fun, h1, h2]

/-- Witness for C10 at a parameterless void main. -/
theorem claim_C10_witness :
    (main_fun 0 ⟨0, Ty.void⟩).2 = [] :=
  (claim_C10 0 ⟨0, Ty.void⟩).2.2.2 rfl rfl

end Compis
